import Mathlib

/-!
Shallow embedding of the pricing engine from
`core/services/pricing_engine.py`, together with proofs about the claims
made by the specification of that engine.

Modelling conventions:
* Python `Decimal` currency values are embedded as exact rationals (`ℚ`);
  `Decimal` arithmetic on the values the engine manipulates is exact.
* Claim-dictionary values are strings or integers (`Value`), matching the
  values the callers in this repository put into claim dictionaries.
* `datetime.now().isoformat()` is abstracted as an opaque clock string
  supplied once per invocation and stamped onto every trace entry of that
  invocation.
* Python exceptions are embedded with `Except`: the accumulator body runs
  in an error monad whose error value carries the exception message, and
  `calculate_price` is the top-level handler.
* Dates are embedded as integers `y*10000 + m*100 + d`, an order-preserving
  encoding of `YYYY-MM-DD`; Django date comparisons become integer
  comparisons.
* Number-to-string interpolation in trace messages uses the fixed
  `toString : ℚ → String`, standing for Python's deterministic `Decimal`
  formatting.
-/

namespace PricingDjango

/-- A value stored in a claim dictionary: the callers in this repository
use strings and ints. -/
inductive Value where
  | vstr (s : String)
  | vint (n : Int)
deriving DecidableEq, Repr

/-- Python `str()` coercion of a claim value. -/
def Value.toText : Value → String
  | .vstr s => s
  | .vint n => toString n

/-- A claim is a flat attribute dictionary (`claim_data`). -/
abbrev ClaimData := List (String × Value)

/-- Python `claim_data.get(k)`: first binding of the key, if any. -/
def claimGet (claim : ClaimData) (k : String) : Option Value :=
  (claim.find? (fun p => p.1 == k)).map Prod.snd

/-- Python `claim_data.get(k)` rendered into an f-string (`None` when absent). -/
def optValText : Option Value → String
  | none => "None"
  | some v => v.toText

/-- Numeric value of a list of decimal digit characters. -/
def digitsVal (cs : List Char) : Nat :=
  cs.foldl (fun a c => a * 10 + (c.toNat - 48)) 0

/-- Parse an unsigned decimal literal (digits, optionally a point and more
digits) as an exact rational; `none` on anything else. -/
def parseUnsigned (cs : List Char) : Option ℚ :=
  let ip := cs.takeWhile Char.isDigit
  let rest := cs.dropWhile Char.isDigit
  match rest with
  | [] => if ip.isEmpty then none else some ((digitsVal ip : ℚ))
  | '.' :: fr =>
      let fp := fr.takeWhile Char.isDigit
      let rest2 := fr.dropWhile Char.isDigit
      if rest2.isEmpty && !(ip.isEmpty && fp.isEmpty) then
        some ((digitsVal ip : ℚ) + (digitsVal fp : ℚ) / ((10 : ℚ) ^ fp.length))
      else none
  | _ => none

/-- Parse a signed decimal literal string; embeds Python `float(s)` and
`Decimal(s)` on the decimal literals the engine's data uses. -/
def parseDecString (s : String) : Option ℚ :=
  match s.toList with
  | '-' :: rest => (parseUnsigned rest).map (fun q => -q)
  | '+' :: rest => parseUnsigned rest
  | cs => parseUnsigned cs

/-- Python `float(claim_val)` on a claim value. -/
def pyFloat : Value → Option ℚ
  | .vint n => some ((n : ℚ))
  | .vstr s => parseDecString s

/-- Python `Decimal(str(v))` on a claim value. -/
def pyDecimal (v : Value) : Option ℚ := parseDecString v.toText

/-- Parse a nonempty all-digit character list as an integer. -/
def pyIntDigits (cs : List Char) : Option Int :=
  if !cs.isEmpty && cs.all Char.isDigit then some ((digitsVal cs : Int)) else none

/-- Python `int(v)`: identity on ints, sign-and-digits parse on strings,
`none` embeds the `ValueError` raise. -/
def pyInt : Value → Option Int
  | .vint n => some n
  | .vstr s =>
      match s.toList with
      | '-' :: rest => (pyIntDigits rest).map Neg.neg
      | '+' :: rest => pyIntDigits rest
      | cs => pyIntDigits cs

/-- Parse `YYYY-MM-DD` into the order-preserving integer encoding. -/
def parseDateString (s : String) : Option Int :=
  match s.splitOn "-" with
  | [y, m, d] =>
      if !y.toList.isEmpty && y.toList.all Char.isDigit
          && !m.toList.isEmpty && m.toList.all Char.isDigit
          && !d.toList.isEmpty && d.toList.all Char.isDigit then
        some ((digitsVal y.toList : Int) * 10000 + (digitsVal m.toList : Int) * 100
              + (digitsVal d.toList : Int))
      else none
  | _ => none

/-- Coerce `claim_data.get('date_of_service')` into a query date the way the
Django ORM does: a missing or non-date value makes the query raise. -/
def parseDosQuery : Option Value → Except String Int
  | none => .error "Cannot use None as a query value"
  | some (.vint _) => .error "invalid date value"
  | some (.vstr s) =>
      match parseDateString s with
      | some d => .ok d
      | none => .error ("invalid date: " ++ s)

/-- `ProviderContract` (the fields the engine reads). -/
structure Contract where
  contract_id : String
  provider_org : String
  contract_name : String
  status : String
  effective_start_date : Int
  effective_end_date : Option Int
deriving DecidableEq, Repr

/-- `PricingRuleCondition` (the fields the engine reads). -/
structure Condition where
  attribute_name : String
  operator : String
  attribute_value : String
deriving DecidableEq, Repr

/-- `PricingRule` (the fields the engine reads; `methodology_code` inlines
the `methodology` foreign key, `base_fee_schedule` its id). -/
structure PricingRule where
  pricing_rule_id : String
  contract_id : String
  rule_type : String
  methodology_code : String
  conditions : List Condition
  specificity_score : Int
  threshold_amount : Option ℚ
  base_fee_schedule : Option String
  multiplier : Option ℚ
  flat_rate : Option ℚ
  status : String
  effective_start_date : Int
  effective_end_date : Option Int
deriving DecidableEq, Repr

/-- `FeeScheduleRate`. -/
structure FeeRate where
  fee_schedule : String
  code : String
  rate_amount : ℚ
deriving DecidableEq, Repr

/-- The reference-data snapshot the engine reads during one call. -/
structure DB where
  contracts : List Contract
  rules : List PricingRule
  rates : List FeeRate
deriving DecidableEq, Repr

/-- One trace step before timestamping: `step` kind and message. -/
structure StepLog where
  step : String
  message : String
deriving DecidableEq, Repr

/-- One trace entry as the caller sees it, with the timestamp added by
`PricingTrace.log`. -/
structure TraceEntry where
  step : String
  message : String
  timestamp : String
deriving DecidableEq, Repr

/-- Stamp a step with the invocation's clock string. -/
def stampAt (now : String) (e : StepLog) : TraceEntry :=
  ⟨e.step, e.message, now⟩

/-- The result dictionary of `calculate_price`: `status`/`error_message`
are present (`some`) only on the error path, `rule_applied` only on the
success path. -/
structure PriceResult where
  allowed_amount : ℚ
  rule_applied : Option String
  trace : List TraceEntry
  status : Option String
  error_message : Option String
deriving DecidableEq, Repr

/-- The mutable accumulator state of the rule loop:
`total_price`, `base_rule_applied`, `trace.rule_applied`. -/
structure AccumState where
  total : ℚ
  base_rule_applied : Bool
  rule_applied : Option String
deriving DecidableEq, Repr

/-- Render a rational into a trace message (stands for Python's
deterministic `Decimal` formatting). -/
def ratText (q : ℚ) : String := toString q

/-- The claim-side value a condition is compared against, with the
`network_status` default of `'INN'`. -/
def condValue (claim : ClaimData) (c : Condition) : Option Value :=
  if c.attribute_name = "network_status" then
    some ((claimGet claim "network_status").getD (.vstr "INN"))
  else claimGet claim c.attribute_name

/-- Whether one condition matches the claim: the body of one iteration of
`_check_conditions` (missing attribute fails, then operator dispatch). -/
def condMatches (claim : ClaimData) (c : Condition) : Bool :=
  match condValue claim c with
  | none => false
  | some v =>
      if c.operator = "EQ" then v.toText == c.attribute_value
      else if c.operator = "GT" then
        match pyFloat v, parseDecString c.attribute_value with
        | some a, some b => decide (a > b)
        | _, _ => false
      else if c.operator = "LT" then
        match pyFloat v, parseDecString c.attribute_value with
        | some a, some b => decide (a < b)
        | _, _ => false
      else if c.operator = "IN" then
        (c.attribute_value.splitOn ",").contains v.toText
      else false

/-- The condition loop of `_check_conditions`: first failing condition
returns false, empty list returns true. -/
def checkCondList (claim : ClaimData) : List Condition → Bool
  | [] => true
  | c :: rest => if condMatches claim c then checkCondList claim rest else false

/-- `PricingEngine._check_conditions`. -/
def check_conditions (r : PricingRule) (claim : ClaimData) : Bool :=
  checkCondList claim r.conditions

/-- `FeeScheduleRate.objects.get(fee_schedule=..., code__code=...)`:
first (unique) matching rate; `none` embeds `DoesNotExist`. -/
def lookupRate (db : DB) (fs : String) (code : Option String) : Option ℚ :=
  match code with
  | none => none
  | some c =>
      (db.rates.find? (fun fr => fr.fee_schedule == fs && fr.code == c)).map
        FeeRate.rate_amount

/-- Python `rule.multiplier or Decimal('1.0')`: a null or zero multiplier
falls back to 1. -/
def pyOrOne : Option ℚ → ℚ
  | some x => if x = 0 then 1 else x
  | none => 1

/-- `PricingEngine._calculate_math`: amount and the trace steps it logs;
`.error` embeds an uncaught Python exception escaping the helper (a `None`
numeric field used in arithmetic, or an unparsable `units`). -/
def calculate_math (db : DB) (r : PricingRule) (claim : ClaimData) :
    Except String (ℚ × List StepLog) :=
  if r.methodology_code = "FLAT_RATE" then
    match r.flat_rate with
    | some fr => .ok (fr, [])
    | none => .error "unsupported operand type for +=: NoneType"
  else if r.methodology_code = "PER_DIEM" then
    match (match claimGet claim "units" with
           | none => some (1 : Int)
           | some v => pyInt v) with
    | none => .error "invalid literal for int() with base 10"
    | some u =>
        match r.flat_rate with
        | some fr => .ok (fr * (u : ℚ), [])
        | none => .error "unsupported operand type for *: NoneType and int"
  else if r.methodology_code = "RBRVS" then
    match r.base_fee_schedule with
    | none => .ok (0, [⟨"ERROR", "Rule missing base fee schedule"⟩])
    | some fs =>
        match lookupRate db fs ((claimGet claim "code").map Value.toText) with
        | some base_rate =>
            .ok (base_rate * pyOrOne r.multiplier,
                 [⟨"CALC", "Strategy: RBRVS ($" ++ ratText base_rate ++ " * "
                    ++ ratText (pyOrOne r.multiplier) ++ ") = $"
                    ++ ratText (base_rate * pyOrOne r.multiplier)⟩])
        | none =>
            .ok (0, [⟨"ERROR", "Code " ++ optValText (claimGet claim "code")
                       ++ " not found in Fee Schedule"⟩])
  else if r.methodology_code = "DRG" then
    match r.base_fee_schedule with
    | none => .ok (0, [⟨"ERROR", "Rule missing base fee schedule for DRG lookup."⟩])
    | some fs =>
        match lookupRate db fs ((claimGet claim "code").map Value.toText) with
        | some w =>
            match r.flat_rate with
            | none => .error "unsupported operand type for *: NoneType and Decimal"
            | some hbr =>
                .ok (hbr * w,
                     [⟨"CALC", "Strategy: DRG (Base $" ++ ratText hbr ++ " * Weight "
                        ++ ratText w ++ ") = $" ++ ratText (hbr * w)⟩])
        | none =>
            .ok (0, [⟨"ERROR", "DRG Weight for code "
                       ++ optValText (claimGet claim "code")
                       ++ " not found in Fee Schedule."⟩])
  else if r.methodology_code = "PERCENT_BILLED" then
    match (match claimGet claim "billed_amount" with
           | none => parseDecString "0.00"
           | some v => pyDecimal v) with
    | none => .ok (0, [⟨"ERROR", "Failed to calculate % Billed: invalid decimal"⟩])
    | some billed =>
        match r.multiplier with
        | none => .ok (0, [⟨"ERROR", "Failed to calculate % Billed: unsupported operand"⟩])
        | some f =>
            .ok (billed * f,
                 [⟨"CALC", "Strategy: % Billed ($" ++ ratText billed ++ " * "
                    ++ ratText f ++ ") = $" ++ ratText (billed * f)⟩])
  else .ok (0, [])

/-- The SKIP message of a lower-ranked BASE rule. -/
def skipBaseMsg (r : PricingRule) : StepLog :=
  ⟨"SKIP", "Rule (Score: " ++ toString r.specificity_score
     ++ ") skipped (Higher score Base already applied)."⟩

/-- The ACCUM step logged when a BASE rule is applied. -/
def accumBaseLog (r : PricingRule) (price : ℚ) : StepLog :=
  ⟨"ACCUM", "[BASE] Rule (Score: " ++ toString r.specificity_score
     ++ ") Added: +$" ++ ratText price⟩

/-- One iteration of the accumulator loop of `calculate_price` on one rule:
new state and the trace steps logged; `.error` embeds an exception escaping
the iteration (caught only at the top level). -/
def runRule (db : DB) (claim : ClaimData) (s : AccumState) (r : PricingRule) :
    Except String (AccumState × List StepLog) :=
  if check_conditions r claim then
    if r.rule_type = "BASE" then
      if s.base_rule_applied then
        .ok (s, [skipBaseMsg r])
      else
        match calculate_math db r claim with
        | .error e => .error e
        | .ok (price, logs) =>
            .ok (⟨s.total + price, true, some r.pricing_rule_id⟩,
                 logs ++ [accumBaseLog r price])
    else if r.rule_type = "ADD_ON" then
      match calculate_math db r claim with
      | .error e => .error e
      | .ok (price, logs) =>
          .ok ({ s with total := s.total + price },
               logs ++ [⟨"ACCUM", "[ADD-ON] Rule (Score: "
                          ++ toString r.specificity_score ++ ") Added: +$"
                          ++ ratText price⟩])
    else if r.rule_type = "ADJUSTMENT" then
      match r.multiplier with
      | some factor =>
          if factor = 0 then .ok (s, [])
          else
            .ok ({ s with total := s.total * factor },
                 [⟨"ADJUST", "Rule (Score: " ++ toString r.specificity_score
                    ++ ") Multiplier: " ++ ratText factor ++ " (Price $"
                    ++ ratText s.total ++ " -> $" ++ ratText (s.total * factor) ++ ")"⟩])
      | none => .ok (s, [])
    else if r.rule_type = "STOP_LOSS" then
      match (match claimGet claim "billed_amount" with
             | none => parseDecString "0"
             | some v => pyDecimal v) with
      | none => .error "InvalidOperation: invalid billed_amount"
      | some billed =>
          if billed > (r.threshold_amount).getD 0 then
            match r.multiplier with
            | none => .error "unsupported operand type for *: Decimal and NoneType"
            | some m =>
                .ok ({ s with total := s.total + (billed - (r.threshold_amount).getD 0) * m },
                     [⟨"OUTLIER", "Billed $" ++ ratText billed ++ " > Threshold $"
                        ++ ratText ((r.threshold_amount).getD 0) ++ ". Paying excess: +$"
                        ++ ratText ((billed - (r.threshold_amount).getD 0) * m)⟩])
          else .ok (s, [⟨"SKIP", "Stop Loss threshold ($" ++ ratText ((r.threshold_amount).getD 0)
                          ++ ") not met."⟩])
    else .ok (s, [])
  else .ok (s, [])

/-- The accumulator loop over the ranked rules, threading state and the
growing trace; an error carries the trace accumulated so far. -/
def runRules (db : DB) (claim : ClaimData) :
    List PricingRule → AccumState → List StepLog →
    Except (String × List StepLog) (AccumState × List StepLog)
  | [], s, tr => .ok (s, tr)
  | r :: rest, s, tr =>
      match runRule db claim s r with
      | .error e => .error (e, tr)
      | .ok (s2, delta) => runRules db claim rest s2 (tr ++ delta)

/-- `PricingEngine._find_active_contract`: the unique ACTIVE contract for
the provider whose start date is on or before the service date, and the
trace steps it logs (none for `DoesNotExist`, an ERROR for
`MultipleObjectsReturned`). -/
def find_active_contract (db : DB) (provider_id : Option Value) (dos : Int) :
    Option Contract × List StepLog :=
  let hits := db.contracts.filter (fun c =>
    (match provider_id with
     | some v => c.provider_org == v.toText
     | none => false)
    && c.status == "ACTIVE"
    && decide (c.effective_start_date ≤ dos))
  match hits with
  | [] => (none, [])
  | [c] => (some c, [⟨"CONTRACT", "Using Contract: " ++ c.contract_name⟩])
  | _ => (none, [⟨"ERROR", "Multiple active contracts found. Ambiguous."⟩])

/-- The rules query of `calculate_price`: this contract's ACTIVE rules
whose effective range covers the service date. -/
def applicableRules (db : DB) (c : Contract) (dos : Int) : List PricingRule :=
  db.rules.filter (fun r =>
    r.contract_id == c.contract_id
    && r.status == "ACTIVE"
    && decide (r.effective_start_date ≤ dos)
    && (match r.effective_end_date with
        | some e => decide (dos ≤ e)
        | none => true))

/-- Stable insertion of a rule into a score-descending list. -/
def insertRuleDesc (r : PricingRule) : List PricingRule → List PricingRule
  | [] => [r]
  | x :: xs =>
      if r.specificity_score ≥ x.specificity_score then r :: x :: xs
      else x :: insertRuleDesc r xs

/-- `order_by('-specificity_score')`: stable descending sort. -/
def sortRulesDesc (rs : List PricingRule) : List PricingRule :=
  rs.foldr insertRuleDesc []

/-- The INIT step logged before the try block. -/
def initLog (claim : ClaimData) : StepLog :=
  ⟨"INIT", "Pricing Claim for Provider " ++ optValText (claimGet claim "provider_id")⟩

/-- The body of `calculate_price` inside its try block: allowed amount,
applied rule id and trace on success; exception message plus the trace
accumulated so far on an uncaught exception. -/
def runBody (db : DB) (claim : ClaimData) :
    Except (String × List StepLog) (ℚ × Option String × List StepLog) :=
  let t0 := [initLog claim]
  match parseDosQuery (claimGet claim "date_of_service") with
  | .error m => .error (m, t0)
  | .ok dos =>
      let fc := find_active_contract db (claimGet claim "provider_id") dos
      let t1 := t0 ++ fc.2
      match fc.1 with
      | none =>
          .ok (0, none, t1 ++ [⟨"STOP", "No Active Contract found for this Provider/DOS."⟩])
      | some contract =>
          let rules := sortRulesDesc (applicableRules db contract dos)
          let t2 := t1 ++ (if rules.isEmpty then [⟨"WARN", "No rules found."⟩] else [])
          match runRules db claim rules ⟨0, false, none⟩ t2 with
          | .error e => .error e
          | .ok (s, tr) =>
              if decide (s.total = 0) && !s.base_rule_applied then
                .ok (0, s.rule_applied, tr ++ [⟨"STOP", "No applicable rules matched."⟩])
              else
                .ok (s.total, s.rule_applied,
                     tr ++ [⟨"SUCCESS", "Final Stacked Price: $" ++ ratText s.total⟩])

/-- `PricingEngine.calculate_price`: the public entry point, with the
top-level exception handler producing the error result. -/
def calculate_price (db : DB) (claim : ClaimData) (now : String) : PriceResult :=
  match runBody db claim with
  | .ok (amt, applied, tr) =>
      { allowed_amount := amt, rule_applied := applied,
        trace := tr.map (stampAt now), status := none, error_message := none }
  | .error (msg, tr) =>
      { allowed_amount := 0, rule_applied := none,
        trace := (tr ++ [(⟨"CRITICAL", "Engine Crash: " ++ msg⟩ : StepLog)]).map (stampAt now),
        status := some "ERROR", error_message := some msg }

/-- A rule of type BASE whose conditions match the claim. -/
def matchingBase (claim : ClaimData) (r : PricingRule) : Bool :=
  r.rule_type == "BASE" && check_conditions r claim

/-- Projection of an accumulator run onto its state, forgetting traces. -/
def stateCore :
    Except (String × List StepLog) (AccumState × List StepLog) → Except String AccumState
  | .ok (s, _) => .ok s
  | .error (m, _) => .error m

/-! Helper lemmas about the accumulator loop. -/

theorem runRules_append (db : DB) (claim : ClaimData) (xs ys : List PricingRule)
    (s : AccumState) (tr : List StepLog) :
    runRules db claim (xs ++ ys) s tr =
      match runRules db claim xs s tr with
      | .ok (s2, tr2) => runRules db claim ys s2 tr2
      | .error e => .error e := by
  induction xs generalizing s tr with
  | nil => simp [runRules]
  | cons r rest ih =>
      simp only [List.cons_append, runRules]
      cases h : runRule db claim s r with
      | error e => rfl
      | ok v => exact ih v.1 (tr ++ v.2)

theorem runRules_trace_mono (db : DB) (claim : ClaimData) (xs : List PricingRule)
    (s : AccumState) (tr : List StepLog) (s2 : AccumState) (tr2 : List StepLog)
    (h : runRules db claim xs s tr = .ok (s2, tr2)) : ∃ dl, tr2 = tr ++ dl := by
  induction xs generalizing s tr with
  | nil =>
      simp only [runRules, Except.ok.injEq, Prod.mk.injEq] at h
      exact ⟨[], by simp [h.2]⟩
  | cons r rest ih =>
      simp only [runRules] at h
      cases hr : runRule db claim s r with
      | error e => rw [hr] at h; exact absurd h (by simp)
      | ok v =>
          rw [hr] at h
          obtain ⟨dl, hdl⟩ := ih v.1 (tr ++ v.2) h
          exact ⟨v.2 ++ dl, by simp [hdl]⟩

theorem runRules_core_trace_irrel (db : DB) (claim : ClaimData) (xs : List PricingRule)
    (s : AccumState) (tr tr' : List StepLog) :
    stateCore (runRules db claim xs s tr) = stateCore (runRules db claim xs s tr') := by
  induction xs generalizing s tr tr' with
  | nil => rfl
  | cons r rest ih =>
      simp only [runRules]
      cases hr : runRule db claim s r with
      | error e => rfl
      | ok v => exact ih v.1 (tr ++ v.2) (tr' ++ v.2)

/-- A rule that is not a matching BASE rule leaves `base_rule_applied` and
the recorded applied rule unchanged. -/
theorem runRule_not_base_core (db : DB) (claim : ClaimData) (s : AccumState)
    (r : PricingRule) (s2 : AccumState) (d : List StepLog)
    (h : matchingBase claim r = false)
    (hr : runRule db claim s r = .ok (s2, d)) :
    s2.base_rule_applied = s.base_rule_applied ∧ s2.rule_applied = s.rule_applied := by
  unfold runRule at hr
  repeat' split at hr
  all_goals simp_all [matchingBase]
  all_goals (rw [← hr.1])
  all_goals exact ⟨rfl, rfl⟩

/-- Once a base rule has been applied, a further matching BASE rule is pure
SKIP: state unchanged, one SKIP step logged. -/
theorem runRule_base_applied_skip (db : DB) (claim : ClaimData) (s : AccumState)
    (r : PricingRule) (hmb : matchingBase claim r = true)
    (hs : s.base_rule_applied = true) :
    runRule db claim s r = .ok (s, [skipBaseMsg r]) := by
  have hmb' := hmb
  simp only [matchingBase, Bool.and_eq_true, beq_iff_eq] at hmb'
  simp [runRule, hmb'.1, hmb'.2, hs]

/-- A matching BASE rule reaching an unfilled base slot computes its amount
and fills the slot. -/
theorem runRule_base_fresh (db : DB) (claim : ClaimData) (s : AccumState)
    (r : PricingRule) (hmb : matchingBase claim r = true)
    (hs : s.base_rule_applied = false) :
    runRule db claim s r =
      match calculate_math db r claim with
      | .error e => .error e
      | .ok (price, logs) =>
          .ok (⟨s.total + price, true, some r.pricing_rule_id⟩,
               logs ++ [accumBaseLog r price]) := by
  have hmb' := hmb
  simp only [matchingBase, Bool.and_eq_true, beq_iff_eq] at hmb'
  simp [runRule, hmb'.1, hmb'.2, hs]

/-- Once the base slot is filled it stays filled and the recorded applied
rule never changes, across one rule. -/
theorem runRule_preserve_applied (db : DB) (claim : ClaimData) (s : AccumState)
    (r : PricingRule) (s2 : AccumState) (d : List StepLog)
    (hs : s.base_rule_applied = true)
    (hr : runRule db claim s r = .ok (s2, d)) :
    s2.base_rule_applied = true ∧ s2.rule_applied = s.rule_applied := by
  by_cases hmb : matchingBase claim r
  · rw [runRule_base_applied_skip db claim s r hmb hs] at hr
    simp only [Except.ok.injEq, Prod.mk.injEq] at hr
    rw [← hr.1]
    exact ⟨hs, rfl⟩
  · have := runRule_not_base_core db claim s r s2 d (by simp [hmb]) hr
    exact ⟨this.1.trans hs, this.2⟩

/-- Once the base slot is filled it stays filled and the recorded applied
rule never changes, across a whole rule list. -/
theorem runRules_preserve_applied (db : DB) (claim : ClaimData)
    (xs : List PricingRule) (s : AccumState) (tr : List StepLog)
    (s2 : AccumState) (tr2 : List StepLog)
    (hs : s.base_rule_applied = true)
    (h : runRules db claim xs s tr = .ok (s2, tr2)) :
    s2.base_rule_applied = true ∧ s2.rule_applied = s.rule_applied := by
  induction xs generalizing s tr with
  | nil =>
      simp only [runRules, Except.ok.injEq, Prod.mk.injEq] at h
      rw [← h.1]
      exact ⟨hs, rfl⟩
  | cons r rest ih =>
      simp only [runRules] at h
      cases hr : runRule db claim s r with
      | error e => rw [hr] at h; exact absurd h (by simp)
      | ok v =>
          rw [hr] at h
          have hstep := runRule_preserve_applied db claim s r v.1 v.2 hs hr
          have := ih v.1 (tr ++ v.2) hstep.1 h
          exact ⟨this.1, this.2.trans hstep.2⟩

/-- A run over rules none of which is a matching BASE rule preserves the
base slot and the recorded applied rule. -/
theorem runRules_no_base (db : DB) (claim : ClaimData)
    (xs : List PricingRule) (s : AccumState) (tr : List StepLog)
    (s2 : AccumState) (tr2 : List StepLog)
    (hx : ∀ r ∈ xs, matchingBase claim r = false)
    (h : runRules db claim xs s tr = .ok (s2, tr2)) :
    s2.base_rule_applied = s.base_rule_applied ∧ s2.rule_applied = s.rule_applied := by
  induction xs generalizing s tr with
  | nil =>
      simp only [runRules, Except.ok.injEq, Prod.mk.injEq] at h
      rw [← h.1]
      exact ⟨rfl, rfl⟩
  | cons r rest ih =>
      simp only [runRules] at h
      cases hr : runRule db claim s r with
      | error e => rw [hr] at h; exact absurd h (by simp)
      | ok v =>
          rw [hr] at h
          have hstep := runRule_not_base_core db claim s r v.1 v.2
            (hx r (by simp)) hr
          have := ih v.1 (tr ++ v.2) (fun x hxx => hx x (by simp [hxx])) h
          exact ⟨this.1.trans hstep.1, this.2.trans hstep.2⟩

/-- With the base slot already filled, every later matching BASE rule
leaves a SKIP step in the final trace. -/
theorem runRules_skips (db : DB) (claim : ClaimData)
    (xs : List PricingRule) (s : AccumState) (tr : List StepLog)
    (s2 : AccumState) (tr2 : List StepLog)
    (hs : s.base_rule_applied = true)
    (h : runRules db claim xs s tr = .ok (s2, tr2)) :
    ∀ r ∈ xs, matchingBase claim r = true → skipBaseMsg r ∈ tr2 := by
  induction xs generalizing s tr with
  | nil => intro r hrx; exact absurd hrx (by simp)
  | cons r0 rest ih =>
      intro r hrx hmb
      simp only [runRules] at h
      rcases List.mem_cons.mp hrx with rfl | hmem
      · rw [runRule_base_applied_skip db claim s r hmb hs] at h
        obtain ⟨dl, hdl⟩ := runRules_trace_mono db claim rest s
          (tr ++ [skipBaseMsg r]) s2 tr2 h
        rw [hdl]
        simp
      · cases hr : runRule db claim s r0 with
        | error e => rw [hr] at h; exact absurd h (by simp)
        | ok v =>
            rw [hr] at h
            have hstep := runRule_preserve_applied db claim s r0 v.1 v.2 hs hr
            exact ih v.1 (tr ++ v.2) hstep.1 h r hmem hmb

/-- With the base slot already filled, deleting the matching BASE rules
from the remaining list changes nothing but SKIP trace steps: the state
outcome is identical. -/
theorem runRules_filter_after_base (db : DB) (claim : ClaimData)
    (xs : List PricingRule) (s : AccumState) (tr tr' : List StepLog)
    (hs : s.base_rule_applied = true) :
    stateCore (runRules db claim xs s tr) =
      stateCore (runRules db claim
        (xs.filter (fun r => !(matchingBase claim r))) s tr') := by
  induction xs generalizing s tr tr' with
  | nil => rfl
  | cons r0 rest ih =>
      by_cases hmb : matchingBase claim r0
      · have hfil : (r0 :: rest).filter (fun r => !(matchingBase claim r))
            = rest.filter (fun r => !(matchingBase claim r)) := by
          simp [List.filter, hmb]
        rw [hfil]
        simp only [runRules, runRule_base_applied_skip db claim s r0 hmb hs]
        rw [runRules_core_trace_irrel db claim rest s (tr ++ [skipBaseMsg r0]) tr']
        exact ih s tr' tr' hs
      · have hfil : (r0 :: rest).filter (fun r => !(matchingBase claim r))
            = r0 :: rest.filter (fun r => !(matchingBase claim r)) := by
          simp [List.filter, hmb]
        rw [hfil]
        simp only [runRules]
        cases hr : runRule db claim s r0 with
        | error e => rfl
        | ok v =>
            have hstep := runRule_not_base_core db claim s r0 v.1 v.2
              (by simp [hmb]) hr
            exact ih v.1 (tr ++ v.2) (tr' ++ v.2) (hstep.1.trans hs)

/-! Claim C1: concrete reference data with a matching CAP rule. -/

def C1contract : Contract :=
  ⟨"CT1", "ORG1", "AHN Commercial 2026", "ACTIVE", 20260101, none⟩

def C1base : PricingRule :=
  ⟨"B1", "CT1", "BASE", "FLAT_RATE", [], 10, none, none, none, some 100,
   "ACTIVE", 20260101, none⟩

def C1cap : PricingRule :=
  ⟨"K1", "CT1", "CAP", "FLAT_RATE", [], 0, none, none, none, some 50,
   "ACTIVE", 20260101, none⟩

def C1db : DB := ⟨[C1contract], [C1base, C1cap], []⟩

def C1claim : ClaimData :=
  [("provider_id", .vstr "ORG1"), ("date_of_service", .vstr "2026-06-01")]

/-- C1: the accumulator has no CAP branch, so a matched CAP rule changes
nothing: here a matching ACTIVE CAP rule with flatRate 50 is among the
applicable rules, its per-rule step is a no-op (no LIMIT step, no clamp),
and the final allowed amount is 100, strictly above the CAP limit —
refuting the claim that the final amount never exceeds a matching CAP
rule's limit. -/
theorem c1_cap_rule_not_enforced :
    (calculate_price C1db C1claim "T").allowed_amount = 100
    ∧ C1cap ∈ applicableRules C1db C1contract 20260601
    ∧ C1cap.rule_type = "CAP"
    ∧ check_conditions C1cap C1claim = true
    ∧ C1cap.flat_rate = some 50
    ∧ (50 : ℚ) < 100
    ∧ (∀ s : AccumState, runRule C1db C1claim s C1cap = .ok (s, [])) := by
  refine ⟨by with_unfolding_all decide, by decide, rfl, rfl, rfl, by norm_num, fun s => rfl⟩

/-! Claim C2: a contract whose effective range ended years before the
service date. -/

def C2contract : Contract :=
  ⟨"CT2", "ORG2", "Old Contract", "ACTIVE", 20200101, some 20201231⟩

def C2db : DB := ⟨[C2contract], [], []⟩

/-- C2: contract resolution checks only the status and the start date, so
for service date 2026-06-01 it returns a contract whose effective end date
2020-12-31 lies before the service date — refuting the claim that such a
contract is never returned. -/
theorem c2_end_date_not_checked :
    (find_active_contract C2db (some (.vstr "ORG2")) 20260601).1 = some C2contract
    ∧ C2contract.status = "ACTIVE"
    ∧ C2contract.effective_end_date = some 20201231
    ∧ (20201231 : Int) < 20260601 :=
  ⟨rfl, rfl, rfl, by norm_num⟩

/-! Claim C3: determinism up to trace timestamps. -/

def C3db : DB := ⟨[], [], []⟩

def C3claim : ClaimData := []

/-- C3 counterexample: two invocations of `calculate_price` on the same
snapshot and claim but at different clock readings return results that are
not identical, because every trace entry embeds the invocation timestamp. -/
theorem c3_results_not_identical :
    calculate_price C3db C3claim "2026-01-01T00:00:00"
      ≠ calculate_price C3db C3claim "2026-01-01T00:00:01" := by decide

/-- C3 (amended): for a fixed reference-data snapshot and fixed claim, two
invocations agree on the allowed amount, applied rule, status, error
message, and on the trace steps and messages element for element — only
the embedded timestamps may differ. -/
theorem c3_deterministic_modulo_timestamps (db : DB) (claim : ClaimData)
    (t1 t2 : String) :
    (calculate_price db claim t1).allowed_amount
        = (calculate_price db claim t2).allowed_amount
    ∧ (calculate_price db claim t1).rule_applied
        = (calculate_price db claim t2).rule_applied
    ∧ (calculate_price db claim t1).status = (calculate_price db claim t2).status
    ∧ (calculate_price db claim t1).error_message
        = (calculate_price db claim t2).error_message
    ∧ (calculate_price db claim t1).trace.map (fun e => (e.step, e.message))
        = (calculate_price db claim t2).trace.map (fun e => (e.step, e.message)) := by
  unfold calculate_price
  cases h : runBody db claim with
  | ok v => simp [stampAt, List.map_map, Function.comp]
  | error e => simp [stampAt, List.map_map, Function.comp]

/-- C4: any exception escaping contract resolution or rule accumulation is
caught by the top-level handler of `calculate_price`, which returns a
well-formed result with zero allowed amount, error status, and a terminal
CRITICAL trace step. -/
theorem c4_engine_fault_contained (db : DB) (claim : ClaimData) (now msg : String)
    (tr : List StepLog) (h : runBody db claim = .error (msg, tr)) :
    calculate_price db claim now =
      { allowed_amount := 0, rule_applied := none,
        trace := (tr ++ [(⟨"CRITICAL", "Engine Crash: " ++ msg⟩ : StepLog)]).map (stampAt now),
        status := some "ERROR", error_message := some msg }
    ∧ (calculate_price db claim now).allowed_amount = 0
    ∧ (calculate_price db claim now).status = some "ERROR"
    ∧ (calculate_price db claim now).trace.getLast? =
        some ⟨"CRITICAL", "Engine Crash: " ++ msg, now⟩ := by
  have h1 : calculate_price db claim now =
      { allowed_amount := 0, rule_applied := none,
        trace := (tr ++ [(⟨"CRITICAL", "Engine Crash: " ++ msg⟩ : StepLog)]).map (stampAt now),
        status := some "ERROR", error_message := some msg } := by
    unfold calculate_price
    rw [h]
  refine ⟨h1, by rw [h1], by rw [h1], ?_⟩
  rw [h1]
  simp [stampAt, List.getLast?_concat]

def C4contract : Contract := ⟨"CT4", "ORG4", "C4 Master", "ACTIVE", 20260101, none⟩

def C4rule : PricingRule :=
  ⟨"P4", "CT4", "BASE", "PER_DIEM", [], 0, none, none, none, some 100,
   "ACTIVE", 20260101, none⟩

def C4db : DB := ⟨[C4contract], [C4rule], []⟩

def C4claim : ClaimData :=
  [("provider_id", .vstr "ORG4"), ("date_of_service", .vstr "2026-06-01"),
   ("units", .vstr "abc")]

def C4tr : List StepLog :=
  [⟨"INIT", "Pricing Claim for Provider ORG4"⟩, ⟨"CONTRACT", "Using Contract: C4 Master"⟩]

/-- C4 witness: a claim whose `units` value cannot parse as an integer
makes the accumulation raise, and the engine converts this into a zero
amount with error status. -/
theorem c4_engine_fault_contained_witness :
    runBody C4db C4claim = .error ("invalid literal for int() with base 10", C4tr)
    ∧ (calculate_price C4db C4claim "T").allowed_amount = 0
    ∧ (calculate_price C4db C4claim "T").status = some "ERROR" := by
  have h : runBody C4db C4claim
      = .error ("invalid literal for int() with base 10", C4tr) := by
    with_unfolding_all rfl
  have h2 := c4_engine_fault_contained C4db C4claim "T"
    "invalid literal for int() with base 10" C4tr h
  exact ⟨h, h2.2.1, h2.2.2.1⟩

/-- C5: among the matching BASE rules of a score-ordered rule list, exactly
the first one contributes: its amount is added to the total and it becomes
the recorded applied rule; every later matching BASE rule only leaves a
SKIP trace step, and deleting all later matching BASE rules leaves the
final state (total, base slot, applied rule) unchanged. -/
theorem c5_base_exclusivity (db : DB) (claim : ClaimData)
    (pre : List PricingRule) (b : PricingRule) (post : List PricingRule)
    (s0 : AccumState) (tr0 : List StepLog) (sF : AccumState) (trF : List StepLog)
    (hpre : ∀ r ∈ pre, matchingBase claim r = false)
    (hb : matchingBase claim b = true)
    (hs0 : s0.base_rule_applied = false)
    (hrun : runRules db claim (pre ++ b :: post) s0 tr0 = .ok (sF, trF)) :
    sF.rule_applied = some b.pricing_rule_id
    ∧ (∃ s1 tr1 price logs, runRules db claim pre s0 tr0 = .ok (s1, tr1)
        ∧ calculate_math db b claim = .ok (price, logs)
        ∧ runRules db claim (pre ++ b :: post) s0 tr0
            = runRules db claim post ⟨s1.total + price, true, some b.pricing_rule_id⟩
                (tr1 ++ (logs ++ [accumBaseLog b price])))
    ∧ (∀ r ∈ post, matchingBase claim r = true → skipBaseMsg r ∈ trF)
    ∧ stateCore (runRules db claim (pre ++ b :: post) s0 tr0)
        = stateCore (runRules db claim
            (pre ++ b :: post.filter (fun r => !(matchingBase claim r))) s0 tr0) := by
  have happ := runRules_append db claim pre (b :: post) s0 tr0
  cases hp : runRules db claim pre s0 tr0 with
  | error e =>
      rw [hp] at happ
      rw [happ] at hrun
      exact absurd hrun (by simp)
  | ok v =>
      obtain ⟨s1, tr1⟩ := v
      simp only [hp] at happ
      have hs1 : s1.base_rule_applied = false := by
        have := runRules_no_base db claim pre s0 tr0 s1 tr1 hpre hp
        rw [this.1, hs0]
      have hstep := runRule_base_fresh db claim s1 b hb hs1
      cases hcm : calculate_math db b claim with
      | error e =>
          simp only [hcm] at hstep
          have hbp : runRules db claim (b :: post) s1 tr1 = .error (e, tr1) := by
            simp only [runRules, hstep]
          rw [happ, hbp] at hrun
          exact absurd hrun (by simp)
      | ok pl =>
          obtain ⟨price, logs⟩ := pl
          simp only [hcm] at hstep
          have hbp : runRules db claim (b :: post) s1 tr1
              = runRules db claim post ⟨s1.total + price, true, some b.pricing_rule_id⟩
                  (tr1 ++ (logs ++ [accumBaseLog b price])) := by
            simp only [runRules, hstep]
          have hrun2 : runRules db claim post
              ⟨s1.total + price, true, some b.pricing_rule_id⟩
              (tr1 ++ (logs ++ [accumBaseLog b price])) = .ok (sF, trF) := by
            rw [← hbp, ← happ]
            exact hrun
          have hpres := runRules_preserve_applied db claim post
            ⟨s1.total + price, true, some b.pricing_rule_id⟩
            (tr1 ++ (logs ++ [accumBaseLog b price])) sF trF rfl hrun2
          refine ⟨hpres.2, ⟨s1, tr1, price, logs, rfl, rfl, by rw [happ, hbp]⟩, ?_, ?_⟩
          · exact runRules_skips db claim post
              ⟨s1.total + price, true, some b.pricing_rule_id⟩
              (tr1 ++ (logs ++ [accumBaseLog b price])) sF trF rfl hrun2
          · rw [happ, hbp]
            have happ2 := runRules_append db claim pre
              (b :: post.filter (fun r => !(matchingBase claim r))) s0 tr0
            simp only [hp] at happ2
            rw [happ2]
            have hbp2 : runRules db claim
                (b :: post.filter (fun r => !(matchingBase claim r))) s1 tr1
                = runRules db claim (post.filter (fun r => !(matchingBase claim r)))
                    ⟨s1.total + price, true, some b.pricing_rule_id⟩
                    (tr1 ++ (logs ++ [accumBaseLog b price])) := by
              simp only [runRules, hstep]
            rw [hbp2]
            exact runRules_filter_after_base db claim post
              ⟨s1.total + price, true, some b.pricing_rule_id⟩
              (tr1 ++ (logs ++ [accumBaseLog b price]))
              (tr1 ++ (logs ++ [accumBaseLog b price])) rfl

def C5b1 : PricingRule :=
  ⟨"B1", "CT5", "BASE", "FLAT_RATE", [], 10, none, none, none, some 100,
   "ACTIVE", 20260101, none⟩

def C5b2 : PricingRule :=
  ⟨"B2", "CT5", "BASE", "FLAT_RATE", [], 5, none, none, none, some 50,
   "ACTIVE", 20260101, none⟩

def C5db : DB := ⟨[], [C5b1, C5b2], []⟩

def C5claim : ClaimData := []

/-- C5 witness: with two matching BASE rules ($100 score 10, $50 score 5),
the run applies only the first: total 100, applied rule B1, and the second
leaves a SKIP step. -/
theorem c5_base_exclusivity_witness :
    runRules C5db C5claim ([] ++ C5b1 :: [C5b2]) ⟨0, false, none⟩ []
      = .ok (⟨100, true, some "B1"⟩, [accumBaseLog C5b1 100, skipBaseMsg C5b2])
    ∧ (⟨100, true, some "B1"⟩ : AccumState).rule_applied = some C5b1.pricing_rule_id
    ∧ skipBaseMsg C5b2 ∈ [accumBaseLog C5b1 100, skipBaseMsg C5b2] := by
  have h : runRules C5db C5claim ([] ++ C5b1 :: [C5b2]) ⟨0, false, none⟩ []
      = .ok (⟨100, true, some "B1"⟩, [accumBaseLog C5b1 100, skipBaseMsg C5b2]) := by
    with_unfolding_all rfl
  have hc := c5_base_exclusivity C5db C5claim [] C5b1 [C5b2] ⟨0, false, none⟩ []
    ⟨100, true, some "B1"⟩ [accumBaseLog C5b1 100, skipBaseMsg C5b2]
    (fun r hr => absurd hr (by simp)) (by decide) rfl h
  exact ⟨h, hc.1, hc.2.2.1 C5b2 (by simp) (by decide)⟩

/-! Helper lemmas about the condition evaluator. -/

theorem claimGet_cons (k : String) (v : Value) (claim : ClaimData) (k2 : String) :
    claimGet ((k, v) :: claim) k2 = if (k == k2) then some v else claimGet claim k2 := by
  by_cases h : (k == k2)
  · simp [claimGet, List.find?_cons_of_pos, h]
  · simp only [Bool.not_eq_true] at h
    simp [claimGet, List.find?_cons_of_neg, h]

theorem checkCondList_eq_all (claim : ClaimData) (cs : List Condition) :
    checkCondList claim cs = cs.all (condMatches claim) := by
  induction cs with
  | nil => rfl
  | cons c rest ih =>
      by_cases h : condMatches claim c
      · simp [checkCondList, h, ih]
      · simp only [Bool.not_eq_true] at h
        simp [checkCondList, h]

theorem condMatches_congr (claim claim' : ClaimData) (c : Condition)
    (h : condValue claim c = condValue claim' c) :
    condMatches claim c = condMatches claim' c := by
  unfold condMatches
  rw [h]

theorem condValue_network_default (claim : ClaimData) (c : Condition)
    (h : claimGet claim "network_status" = none) :
    condValue claim c = condValue (("network_status", Value.vstr "INN") :: claim) c := by
  unfold condValue
  by_cases hc : c.attribute_name = "network_status"
  · simp [hc, claimGet_cons, h]
  · have hne : ("network_status" == c.attribute_name) = false := by
      simp [beq_eq_false_iff_ne]
      exact fun he => hc he.symm
    simp [hc, claimGet_cons, hne]

theorem condMatches_false_missing (claim : ClaimData) (c : Condition)
    (hne : c.attribute_name ≠ "network_status")
    (hmiss : claimGet claim c.attribute_name = none) :
    condMatches claim c = false := by
  unfold condMatches condValue
  simp [hne, hmiss]

theorem checkCondList_false_of_mem (claim : ClaimData) (c : Condition)
    (hc : condMatches claim c = false) (cs1 cs2 : List Condition) :
    checkCondList claim (cs1 ++ c :: cs2) = false := by
  induction cs1 with
  | nil => simp [checkCondList, hc]
  | cons c1 rest ih =>
      by_cases h1 : condMatches claim c1
      · simp [checkCondList, h1, ih]
      · simp only [Bool.not_eq_true] at h1
        simp [checkCondList, h1]

/-- C6: the condition evaluator returns true exactly when every attached
condition matches; a rule with no conditions matches unconditionally; a
claim missing `network_status` is evaluated as if it carried `"INN"`; any
other missing attribute makes the whole rule fail no matter what other
conditions surround it; and a GT or LT condition whose either side fails
to parse as a number fails. -/
theorem c6_condition_evaluator (r : PricingRule) (claim : ClaimData) :
    (check_conditions r claim = true ↔ ∀ c ∈ r.conditions, condMatches claim c = true)
    ∧ (r.conditions = [] → check_conditions r claim = true)
    ∧ (claimGet claim "network_status" = none →
        check_conditions r claim
          = check_conditions r (("network_status", Value.vstr "INN") :: claim))
    ∧ (∀ cs1 c cs2, r.conditions = cs1 ++ c :: cs2 →
        c.attribute_name ≠ "network_status" →
        claimGet claim c.attribute_name = none →
        check_conditions r claim = false)
    ∧ (∀ c, (c.operator = "GT" ∨ c.operator = "LT") →
        ∀ v, condValue claim c = some v →
        (pyFloat v = none ∨ parseDecString c.attribute_value = none) →
        condMatches claim c = false) := by
  refine ⟨?_, ?_, ?_, ?_, ?_⟩
  · rw [check_conditions, checkCondList_eq_all]
    exact List.all_eq_true
  · intro h
    rw [check_conditions, h]
    rfl
  · intro h
    unfold check_conditions
    induction r.conditions with
    | nil => rfl
    | cons c rest ih =>
        unfold checkCondList
        rw [condMatches_congr claim (("network_status", Value.vstr "INN") :: claim) c
          (condValue_network_default claim c h), ih]
  · intro cs1 c cs2 hcond hne hmiss
    rw [check_conditions, hcond]
    exact checkCondList_false_of_mem claim c
      (condMatches_false_missing claim c hne hmiss) cs1 cs2
  · intro c hop v hv hparse
    unfold condMatches
    rw [hv]
    rcases hop with h | h <;> rw [h] <;>
      rcases hparse with hp | hp <;>
        cases hq : pyFloat v <;> cases hq2 : parseDecString c.attribute_value <;>
          simp_all

def C6rule : PricingRule :=
  ⟨"R6", "CT6", "BASE", "FLAT_RATE",
   [⟨"modifier", "EQ", "50"⟩], 500, none, none, none, some 10,
   "ACTIVE", 20260101, none⟩

def C6rule2 : PricingRule :=
  ⟨"R62", "CT6", "BASE", "FLAT_RATE", [], 0, none, none, none, some 10,
   "ACTIVE", 20260101, none⟩

def C6claim : ClaimData := [("code", .vstr "99213")]

/-- C6 witness: a rule conditioned on a `modifier` the claim does not carry
fails, and a rule with no conditions matches unconditionally. -/
theorem c6_condition_evaluator_witness :
    check_conditions C6rule C6claim = false
    ∧ check_conditions C6rule2 C6claim = true := by
  refine ⟨?_, (c6_condition_evaluator C6rule2 C6claim).2.1 rfl⟩
  exact (c6_condition_evaluator C6rule C6claim).2.2.2.1 []
    ⟨"modifier", "EQ", "50"⟩ [] rfl (by decide) (by decide)

/-- C7: a matched RBRVS or DRG rule whose fee-schedule lookup misses
yields amount 0 with an ERROR trace step from the methodology calculator,
and the accumulator simply carries on with the remaining rules from a
state whose total is unchanged. -/
theorem c7_lookup_miss_local (db : DB) (r : PricingRule) (claim : ClaimData)
    (s : AccumState) (fs : String)
    (hm : r.methodology_code = "RBRVS" ∨ r.methodology_code = "DRG")
    (hfs : r.base_fee_schedule = some fs)
    (hmiss : lookupRate db fs ((claimGet claim "code").map Value.toText) = none)
    (hmatch : check_conditions r claim = true)
    (hty : r.rule_type = "ADD_ON" ∨ (r.rule_type = "BASE" ∧ s.base_rule_applied = false)) :
    (∃ msg, calculate_math db r claim = .ok (0, [⟨"ERROR", msg⟩]))
    ∧ ∃ s2 d, runRule db claim s r = .ok (s2, d)
        ∧ s2.total = s.total
        ∧ (∃ msg, (⟨"ERROR", msg⟩ : StepLog) ∈ d)
        ∧ ∀ rest tr, runRules db claim (r :: rest) s tr
            = runRules db claim rest s2 (tr ++ d) := by
  have hcalc : ∃ msg, calculate_math db r claim = .ok (0, [⟨"ERROR", msg⟩]) := by
    rcases hm with h | h
    · exact ⟨"Code " ++ optValText (claimGet claim "code") ++ " not found in Fee Schedule",
        by simp [calculate_math, h, hfs, hmiss]⟩
    · exact ⟨"DRG Weight for code " ++ optValText (claimGet claim "code")
          ++ " not found in Fee Schedule.",
        by simp [calculate_math, h, hfs, hmiss]⟩
  obtain ⟨msg, hcm⟩ := hcalc
  refine ⟨⟨msg, hcm⟩, ?_⟩
  rcases hty with hA | ⟨hB, hsb⟩
  · have hrr : runRule db claim s r
        = .ok (s, [⟨"ERROR", msg⟩,
                   ⟨"ACCUM", "[ADD-ON] Rule (Score: " ++ toString r.specificity_score
                      ++ ") Added: +$" ++ ratText 0⟩]) := by
      simp [runRule, hmatch, hA, hcm]
    exact ⟨s, _, hrr, rfl, ⟨msg, by simp⟩,
      fun rest tr => by simp [runRules, hrr]⟩
  · have hrr : runRule db claim s r
        = .ok (⟨s.total, true, some r.pricing_rule_id⟩,
               [⟨"ERROR", msg⟩, accumBaseLog r 0]) := by
      simp [runRule, hmatch, hB, hsb, hcm]
    exact ⟨⟨s.total, true, some r.pricing_rule_id⟩, _, hrr, rfl, ⟨msg, by simp⟩,
      fun rest tr => by simp [runRules, hrr]⟩

def C7rule : PricingRule :=
  ⟨"R7", "CT7", "ADD_ON", "RBRVS", [], 0, none, some "FS7", some 2, none,
   "ACTIVE", 20260101, none⟩

def C7db : DB := ⟨[], [C7rule], []⟩

def C7claim : ClaimData := [("code", .vstr "99999")]

/-- C7 witness: an RBRVS add-on rule over an empty fee schedule misses the
lookup for code 99999 and contributes 0 with an ERROR step. -/
theorem c7_lookup_miss_local_witness :
    ∃ msg, calculate_math C7db C7rule C7claim = .ok (0, [⟨"ERROR", msg⟩]) :=
  (c7_lookup_miss_local C7db C7rule C7claim ⟨0, false, none⟩ "FS7"
    (Or.inl rfl) rfl (by decide) (by decide) (Or.inl rfl)).1

/-! Claim C8: methodology amounts. -/

theorem lookupRate_nonneg (db : DB) (fs : String) (code : Option String) (q : ℚ)
    (hrates : ∀ e ∈ db.rates, 0 ≤ e.rate_amount)
    (h : lookupRate db fs code = some q) : 0 ≤ q := by
  unfold lookupRate at h
  cases code with
  | none => exact absurd h (by simp)
  | some c =>
      rw [Option.map_eq_some'] at h
      obtain ⟨e, he, hq⟩ := h
      rw [← hq]
      exact hrates e (List.mem_of_find?_eq_some he)

theorem pyOrOne_nonneg (m : Option ℚ) (hm : ∀ x, m = some x → 0 ≤ x) :
    0 ≤ pyOrOne m := by
  cases m with
  | none => norm_num [pyOrOne]
  | some x =>
      simp only [pyOrOne]
      by_cases hx : x = 0
      · rw [if_pos hx]; norm_num
      · rw [if_neg hx]; exact hm x rfl

def C8rule : PricingRule :=
  ⟨"R8", "CT8", "BASE", "PER_DIEM", [], 0, none, none, none, some 100,
   "ACTIVE", 20260101, none⟩

def C8db : DB := ⟨[], [], []⟩

def C8claim : ClaimData := [("units", .vint (-2))]

/-- C8 counterexample: the calculator does not return a non-negative
amount for every matched rule: a PER_DIEM rule with flat rate 100 and
claim units −2 (the code never validates that units are non-negative)
yields amount −200 < 0. -/
theorem c8_negative_amount_counterexample :
    calculate_math C8db C8rule C8claim = .ok (-200, []) ∧ ((-200 : ℚ) < 0) :=
  ⟨by with_unfolding_all rfl, by norm_num⟩

/-- C8 (amended): when the rule's flat rate and multiplier, the fee
schedule rates, and the claim's parsed units and billed amount are all
non-negative, the methodology calculator returns a non-negative amount;
for PER_DIEM the amount is flatRate × units with units defaulting to 1,
and units that fail to parse as an integer raise an error that escapes to
the engine's top-level handler instead of producing a per-rule amount. -/
theorem c8_methodology_amounts (db : DB) (r : PricingRule) (claim : ClaimData)
    (hflat : ∀ x, r.flat_rate = some x → 0 ≤ x)
    (hmult : ∀ x, r.multiplier = some x → 0 ≤ x)
    (hrates : ∀ e ∈ db.rates, 0 ≤ e.rate_amount)
    (hunits : ∀ v n, claimGet claim "units" = some v → pyInt v = some n → 0 ≤ n)
    (hbilled : ∀ v q, claimGet claim "billed_amount" = some v → pyDecimal v = some q → 0 ≤ q) :
    (∀ amt logs, calculate_math db r claim = .ok (amt, logs) → 0 ≤ amt)
    ∧ (r.methodology_code = "PER_DIEM" → ∀ fr, r.flat_rate = some fr →
        (claimGet claim "units" = none →
          calculate_math db r claim = .ok (fr * ((1 : Int) : ℚ), []))
        ∧ (∀ v n, claimGet claim "units" = some v → pyInt v = some n →
            calculate_math db r claim = .ok (fr * ((n : Int) : ℚ), []))
        ∧ (∀ v, claimGet claim "units" = some v → pyInt v = none →
            calculate_math db r claim = .error "invalid literal for int() with base 10")) := by
  constructor
  · intro amt logs h
    by_cases h1 : r.methodology_code = "FLAT_RATE"
    · cases hfr : r.flat_rate with
      | none => simp [calculate_math, h1, hfr] at h
      | some fr =>
          simp [calculate_math, h1, hfr] at h
          rw [← h.1]
          exact hflat fr hfr
    · by_cases h2 : r.methodology_code = "PER_DIEM"
      · cases hu : (match claimGet claim "units" with
                    | none => some (1 : Int)
                    | some v => pyInt v) with
        | none => simp [calculate_math, h1, h2, hu] at h
        | some u =>
            cases hfr : r.flat_rate with
            | none => simp [calculate_math, h1, h2, hu, hfr] at h
            | some fr =>
                simp [calculate_math, h1, h2, hu, hfr] at h
                rw [← h.1]
                have hu0 : (0 : Int) ≤ u := by
                  cases hg : claimGet claim "units" with
                  | none =>
                      rw [hg] at hu
                      simp only [Option.some.injEq] at hu
                      omega
                  | some v =>
                      rw [hg] at hu
                      exact hunits v u hg hu
                exact mul_nonneg (hflat fr hfr) (by exact_mod_cast hu0)
      · by_cases h3 : r.methodology_code = "RBRVS"
        · cases hbf : r.base_fee_schedule with
          | none => simp [calculate_math, h1, h2, h3, hbf] at h; rw [← h.1]
          | some fs =>
              cases hlk : lookupRate db fs ((claimGet claim "code").map Value.toText) with
              | none => simp [calculate_math, h1, h2, h3, hbf, hlk] at h; rw [← h.1]
              | some br =>
                  simp [calculate_math, h1, h2, h3, hbf, hlk] at h
                  rw [← h.1]
                  exact mul_nonneg (lookupRate_nonneg db fs _ br hrates hlk)
                    (pyOrOne_nonneg r.multiplier hmult)
        · by_cases h4 : r.methodology_code = "DRG"
          · cases hbf : r.base_fee_schedule with
            | none => simp [calculate_math, h1, h2, h3, h4, hbf] at h; rw [← h.1]
            | some fs =>
                cases hlk : lookupRate db fs ((claimGet claim "code").map Value.toText) with
                | none => simp [calculate_math, h1, h2, h3, h4, hbf, hlk] at h; rw [← h.1]
                | some w =>
                    cases hfr : r.flat_rate with
                    | none => simp [calculate_math, h1, h2, h3, h4, hbf, hlk, hfr] at h
                    | some fr =>
                        simp [calculate_math, h1, h2, h3, h4, hbf, hlk, hfr] at h
                        rw [← h.1]
                        exact mul_nonneg (hflat fr hfr)
                          (lookupRate_nonneg db fs _ w hrates hlk)
          · by_cases h5 : r.methodology_code = "PERCENT_BILLED"
            · cases hbv : (match claimGet claim "billed_amount" with
                           | none => parseDecString "0.00"
                           | some v => pyDecimal v) with
              | none => simp [calculate_math, h1, h2, h3, h4, h5, hbv] at h; rw [← h.1]
              | some billed =>
                  cases hmu : r.multiplier with
                  | none =>
                      simp [calculate_math, h1, h2, h3, h4, h5, hbv, hmu] at h
                      rw [← h.1]
                  | some f =>
                      simp [calculate_math, h1, h2, h3, h4, h5, hbv, hmu] at h
                      rw [← h.1]
                      have hb0 : (0 : ℚ) ≤ billed := by
                        cases hg : claimGet claim "billed_amount" with
                        | none =>
                            rw [hg] at hbv
                            have hz : parseDecString "0.00" = some 0 := by
                              with_unfolding_all decide
                            rw [hz] at hbv
                            simp only [Option.some.injEq] at hbv
                            rw [← hbv]
                        | some v =>
                            rw [hg] at hbv
                            exact hbilled v billed hg hbv
                      exact mul_nonneg hb0 (hmult f hmu)
            · simp [calculate_math, h1, h2, h3, h4, h5] at h
              rw [← h.1]
  · intro hpd fr hfr
    refine ⟨?_, ?_, ?_⟩
    · intro hg
      simp [calculate_math, hpd, hg, hfr]
    · intro v n hg hn
      simp [calculate_math, hpd, hg, hn, hfr]
    · intro v hg hn
      simp [calculate_math, hpd, hg, hn]

def C8wclaim : ClaimData := [("units", .vint 3)]

/-- C8 witness: PER_DIEM flat rate 100 with three units prices to
100 × 3 under the amended statement's hypotheses. -/
theorem c8_methodology_amounts_witness :
    calculate_math C8db C8rule C8wclaim = .ok (100 * ((3 : Int) : ℚ), []) :=
  ((c8_methodology_amounts C8db C8rule C8wclaim
      (fun x hx => by
        simp only [C8rule] at hx
        simp only [Option.some.injEq] at hx
        rw [← hx]; norm_num)
      (fun x hx => by simp [C8rule] at hx)
      (fun e he => by simp [C8db] at he)
      (fun v n hv hn => by
        have hv3 : Value.vint 3 = v := by simpa [C8wclaim, claimGet] using hv
        rw [← hv3] at hn
        simp only [pyInt, Option.some.injEq] at hn
        omega)
      (fun v q hv hq => by simp [C8wclaim, claimGet] at hv)).2
    rfl 100 rfl).2.1 (.vint 3) 3 rfl rfl

/-- C9: a matched ADJUSTMENT rule whose multiplier is null or zero is
silently skipped: the accumulator state is returned unchanged and no trace
step at all (in particular no ADJUST step) is logged, so a zero multiplier
never zeroes the running total. -/
theorem c9_adjustment_null_or_zero_noop (db : DB) (claim : ClaimData)
    (s : AccumState) (r : PricingRule)
    (hmatch : check_conditions r claim = true)
    (hty : r.rule_type = "ADJUSTMENT")
    (hmul : r.multiplier = none ∨ r.multiplier = some 0) :
    runRule db claim s r = .ok (s, [])
    ∧ ∀ rest tr, runRules db claim (r :: rest) s tr = runRules db claim rest s tr := by
  have h1 : runRule db claim s r = .ok (s, []) := by
    rcases hmul with h | h <;> simp [runRule, hmatch, hty, h]
  exact ⟨h1, fun rest tr => by simp [runRules, h1]⟩

def C9rule : PricingRule :=
  ⟨"R9", "CT9", "ADJUSTMENT", "RBRVS", [], 0, none, none, some 0, none,
   "ACTIVE", 20260101, none⟩

def C9db : DB := ⟨[], [], []⟩

def C9state : AccumState := ⟨100, true, some "B"⟩

/-- C9 witness: an unconditional ADJUSTMENT rule with multiplier 0 applied
to a running total of 100 leaves the state untouched and logs nothing. -/
theorem c9_adjustment_null_or_zero_noop_witness :
    runRule C9db [] C9state C9rule = .ok (C9state, []) :=
  (c9_adjustment_null_or_zero_noop C9db [] C9state C9rule rfl rfl (Or.inr rfl)).1

/-! Helper lemmas for claim C10. -/

theorem runRule_base_fresh_applied (db : DB) (claim : ClaimData) (s : AccumState)
    (r : PricingRule) (v : AccumState × List StepLog)
    (hmb : matchingBase claim r = true) (hs : s.base_rule_applied = false)
    (hr : runRule db claim s r = .ok v) :
    v.1.base_rule_applied = true ∧ v.1.rule_applied = some r.pricing_rule_id := by
  have hstep := runRule_base_fresh db claim s r hmb hs
  cases hcm : calculate_math db r claim with
  | error e =>
      simp only [hcm] at hstep
      rw [hstep] at hr
      exact absurd hr (by simp)
  | ok pl =>
      simp only [hcm] at hstep
      rw [hstep] at hr
      simp only [Except.ok.injEq] at hr
      rw [← hr]
      exact ⟨rfl, rfl⟩

theorem runRule_applied_invariant (db : DB) (claim : ClaimData) (s : AccumState)
    (r : PricingRule) (s2 : AccumState) (d : List StepLog)
    (hinv : s.rule_applied.isSome = s.base_rule_applied)
    (hr : runRule db claim s r = .ok (s2, d)) :
    s2.rule_applied.isSome = s2.base_rule_applied := by
  by_cases hmb : matchingBase claim r
  · by_cases hs : s.base_rule_applied
    · rw [runRule_base_applied_skip db claim s r hmb hs] at hr
      simp only [Except.ok.injEq, Prod.mk.injEq] at hr
      rw [← hr.1]
      exact hinv
    · have hs' : s.base_rule_applied = false := by simpa using hs
      have := runRule_base_fresh_applied db claim s r (s2, d) hmb hs' hr
      rw [this.1, this.2]
      rfl
  · have := runRule_not_base_core db claim s r s2 d (by simpa using hmb) hr
    rw [this.1, this.2]
    exact hinv

theorem runRules_applied_invariant (db : DB) (claim : ClaimData)
    (xs : List PricingRule) (s : AccumState) (tr : List StepLog)
    (s2 : AccumState) (tr2 : List StepLog)
    (hinv : s.rule_applied.isSome = s.base_rule_applied)
    (h : runRules db claim xs s tr = .ok (s2, tr2)) :
    s2.rule_applied.isSome = s2.base_rule_applied := by
  induction xs generalizing s tr with
  | nil =>
      simp only [runRules, Except.ok.injEq, Prod.mk.injEq] at h
      rw [← h.1]
      exact hinv
  | cons r rest ih =>
      simp only [runRules] at h
      cases hr : runRule db claim s r with
      | error e => rw [hr] at h; exact absurd h (by simp)
      | ok v =>
          rw [hr] at h
          exact ih v.1 (tr ++ v.2)
            (runRule_applied_invariant db claim s r v.1 v.2 hinv hr) h

theorem runRules_base_iff (db : DB) (claim : ClaimData) (xs : List PricingRule)
    (s : AccumState) (tr : List StepLog) (s2 : AccumState) (tr2 : List StepLog)
    (h : runRules db claim xs s tr = .ok (s2, tr2)) :
    (s2.base_rule_applied = true
      ↔ (s.base_rule_applied = true ∨ ∃ r ∈ xs, matchingBase claim r = true)) := by
  induction xs generalizing s tr with
  | nil =>
      simp only [runRules, Except.ok.injEq, Prod.mk.injEq] at h
      rw [← h.1]
      simp
  | cons r0 rest ih =>
      simp only [runRules] at h
      cases hr : runRule db claim s r0 with
      | error e => rw [hr] at h; exact absurd h (by simp)
      | ok v =>
          rw [hr] at h
          have hiff := ih v.1 (tr ++ v.2) h
          by_cases hmb : matchingBase claim r0
          · have hv1 : v.1.base_rule_applied = true := by
              by_cases hs : s.base_rule_applied
              · exact (runRule_preserve_applied db claim s r0 v.1 v.2 hs hr).1
              · have hs' : s.base_rule_applied = false := by simpa using hs
                exact (runRule_base_fresh_applied db claim s r0 v hmb hs' hr).1
            have hs2 : s2.base_rule_applied = true := by
              rw [hiff]
              exact Or.inl hv1
            rw [hs2]
            simp only [true_iff]
            exact Or.inr ⟨r0, by simp, hmb⟩
          · have hcore := runRule_not_base_core db claim s r0 v.1 v.2
              (by simpa using hmb) hr
            rw [hiff, hcore.1]
            constructor
            · rintro (hx | ⟨r, hrm, hrb⟩)
              · exact Or.inl hx
              · exact Or.inr ⟨r, List.mem_cons_of_mem r0 hrm, hrb⟩
            · rintro (hx | ⟨r, hrm, hrb⟩)
              · exact Or.inl hx
              · rcases List.mem_cons.mp hrm with rfl | hrm2
                · exact absurd hrb (by simpa using hmb)
                · exact Or.inr ⟨r, hrm2, hrb⟩

theorem mem_insertRuleDesc (x r : PricingRule) (l : List PricingRule) :
    x ∈ insertRuleDesc r l ↔ x = r ∨ x ∈ l := by
  induction l with
  | nil => simp [insertRuleDesc]
  | cons a as ih =>
      unfold insertRuleDesc
      by_cases h : r.specificity_score ≥ a.specificity_score
      · rw [if_pos h]
        simp [List.mem_cons]
      · rw [if_neg h]
        simp only [List.mem_cons, ih]
        tauto

theorem mem_sortRulesDesc (x : PricingRule) (l : List PricingRule) :
    x ∈ sortRulesDesc l ↔ x ∈ l := by
  induction l with
  | nil => simp [sortRulesDesc]
  | cons a as ih =>
      show x ∈ insertRuleDesc a (sortRulesDesc as) ↔ _
      rw [mem_insertRuleDesc, ih]
      simp [List.mem_cons]

/-- C10 (amended): in every non-error result of `calculate_price`, the
applied-rule identifier is non-null exactly when a matching BASE rule was
among the applicable rules (and hence was applied); matched ADD_ON,
ADJUSTMENT and STOP_LOSS rules never set it. -/
theorem c10_applied_iff_base (db : DB) (claim : ClaimData) (now : String)
    (hok : (calculate_price db claim now).status = none) :
    ((calculate_price db claim now).rule_applied ≠ none
      ↔ ∃ dos contract, parseDosQuery (claimGet claim "date_of_service") = .ok dos
          ∧ (find_active_contract db (claimGet claim "provider_id") dos).1 = some contract
          ∧ ∃ r ∈ applicableRules db contract dos, matchingBase claim r = true) := by
  cases hB : runBody db claim with
  | error e =>
      exfalso
      unfold calculate_price at hok
      rw [hB] at hok
      simp at hok
  | ok v =>
      obtain ⟨amt, applied, tr⟩ := v
      have hres : (calculate_price db claim now).rule_applied = applied := by
        unfold calculate_price
        rw [hB]
      rw [hres]
      unfold runBody at hB
      cases hdos : parseDosQuery (claimGet claim "date_of_service") with
      | error m => rw [hdos] at hB; exact absurd hB (by simp)
      | ok dos =>
          simp only [hdos] at hB
          split at hB
          · rename_i hfc
            simp only [Except.ok.injEq, Prod.mk.injEq] at hB
            constructor
            · intro hne
              exact absurd hB.2.1.symm hne
            · rintro ⟨dos2, contract, hdos2, hfind, -⟩
              simp only [Except.ok.injEq] at hdos2
              rw [← hdos2] at hfind
              rw [hfc] at hfind
              exact absurd hfind (by simp)
          · rename_i contract hfc
            split at hB
            · exact absurd hB (by simp)
            · rename_i s trR hrr
              have happl : applied = s.rule_applied := by
                split at hB <;>
                  (simp only [Except.ok.injEq, Prod.mk.injEq] at hB
                   exact hB.2.1.symm)
              rw [happl]
              have hinv := runRules_applied_invariant db claim
                (sortRulesDesc (applicableRules db contract dos)) ⟨0, false, none⟩
                _ s trR rfl hrr
              have hbase := runRules_base_iff db claim
                (sortRulesDesc (applicableRules db contract dos)) ⟨0, false, none⟩
                _ s trR hrr
              constructor
              · intro hne
                refine ⟨dos, contract, rfl, hfc, ?_⟩
                have hsome : s.rule_applied.isSome = true :=
                  Option.ne_none_iff_isSome.mp hne
                have hb : s.base_rule_applied = true := by
                  rw [← hinv, hsome]
                obtain ⟨r, hrm, hrb⟩ := (hbase.mp hb).resolve_left (by simp)
                exact ⟨r, (mem_sortRulesDesc r _).mp hrm, hrb⟩
              · rintro ⟨dos2, contract2, hdos2, hfind, r, hrm, hrb⟩
                simp only [Except.ok.injEq] at hdos2
                rw [← hdos2] at hfind hrm
                rw [hfc] at hfind
                simp only [Option.some.injEq] at hfind
                rw [← hfind] at hrm
                have hb : s.base_rule_applied = true :=
                  hbase.mpr (Or.inr ⟨r, (mem_sortRulesDesc r _).mpr hrm, hrb⟩)
                rw [Option.ne_none_iff_isSome, hinv]
                exact hb

def C10contract : Contract := ⟨"CTX", "ORGX", "CX", "ACTIVE", 20260101, none⟩

def C10b : PricingRule :=
  ⟨"BX", "CTX", "BASE", "FLAT_RATE", [], 10, none, none, none, some 100,
   "ACTIVE", 20260101, none⟩

def C10sl : PricingRule :=
  ⟨"SX", "CTX", "STOP_LOSS", "FLAT_RATE", [], 0, none, none, none, none,
   "ACTIVE", 20260101, none⟩

def C10db : DB := ⟨[C10contract], [C10b, C10sl], []⟩

def C10claim : ClaimData :=
  [("provider_id", .vstr "ORGX"), ("date_of_service", .vstr "2026-06-01"),
   ("billed_amount", .vstr "500")]

/-- C10 counterexample: when a matched STOP_LOSS rule with a null
multiplier crashes the engine after a BASE rule has already been applied
(its ACCUM step is in the trace), the error result carries no applied-rule
identifier — so over all results, rule_applied non-null is not equivalent
to a BASE rule having been applied. -/
theorem c10_error_result_counterexample :
    (calculate_price C10db C10claim "T").rule_applied = none
    ∧ (calculate_price C10db C10claim "T").status = some "ERROR"
    ∧ stampAt "T" (accumBaseLog C10b 100) ∈ (calculate_price C10db C10claim "T").trace
    ∧ matchingBase C10claim C10b = true := by
  have h : (calculate_price C10db C10claim "T").trace
      = [stampAt "T" (initLog C10claim),
         stampAt "T" ⟨"CONTRACT", "Using Contract: CX"⟩,
         stampAt "T" (accumBaseLog C10b 100),
         stampAt "T" ⟨"CRITICAL",
           "Engine Crash: unsupported operand type for *: Decimal and NoneType"⟩] := by
    with_unfolding_all rfl
  refine ⟨by with_unfolding_all rfl, by with_unfolding_all rfl, ?_, by decide⟩
  rw [h]
  simp

def C10wcontract : Contract := ⟨"CTW", "ORGW", "CW", "ACTIVE", 20260101, none⟩

def C10wb : PricingRule :=
  ⟨"BW", "CTW", "BASE", "FLAT_RATE", [], 10, none, none, none, some 100,
   "ACTIVE", 20260101, none⟩

def C10wdb : DB := ⟨[C10wcontract], [C10wb], []⟩

def C10wclaim : ClaimData :=
  [("provider_id", .vstr "ORGW"), ("date_of_service", .vstr "2026-06-01")]

/-- C10 witness: a successfully priced claim with one matching BASE rule
has a non-null applied-rule identifier. -/
theorem c10_applied_iff_base_witness :
    (calculate_price C10wdb C10wclaim "T").rule_applied ≠ none := by
  have hok : (calculate_price C10wdb C10wclaim "T").status = none := by
    with_unfolding_all rfl
  exact (c10_applied_iff_base C10wdb C10wclaim "T" hok).mpr
    ⟨20260601, C10wcontract, by with_unfolding_all rfl, by with_unfolding_all rfl,
     C10wb, by decide, by decide⟩

end PricingDjango
